import Mathlib

/-!
Verification of the `copy-template.sh` scaffolding script.

The script copies a template directory to a destination, derives an app
slug and display name from the destination basename, and rewrites
placeholder tokens in `app.json` and `package.json`.

The shell pipeline is embedded shallowly: strings are `List Char` /
`String`, `tr` and `sed` commands become pure functions over characters,
and the external effects (directory existence, the confirmation prompt,
`mkdir`, `rsync`, `sed` invocation success) become fields of an
environment record consumed by a step-by-step model of the script's
control flow.  `sed` substitution patterns are modelled as literal
strings; the placeholder constants at stake contain `.` as their only
regex metacharacter and the inputs considered never exploit it.
-/

namespace CopyTemplate

/-- ASCII lowercasing of one character, the per-character action of
`tr '[:upper:]' '[:lower:]'` (line 72 of the script). -/
def lowerChar (c : Char) : Char :=
  if 65 ≤ c.toNat ∧ c.toNat ≤ 90 then Char.ofNat (c.toNat + 32) else c

/-- Characters the slug keeps: the class `[a-z0-9]` of the first `sed`
on line 72. -/
def isSlugChar (c : Char) : Bool :=
  (97 ≤ c.toNat && c.toNat ≤ 122) || (48 ≤ c.toNat && c.toNat ≤ 57)

/-- One step of the first `sed` substitution of line 72, which replaces
`[^a-z0-9]+` by `-` globally: any character outside `[a-z0-9]` becomes a
hyphen (runs are collapsed separately). -/
def hyphenate (c : Char) : Char := if isSlugChar c then c else '-'

/-- Collapse every run of consecutive hyphens to a single hyphen;
together with `hyphenate` this is the substitution replacing each
maximal `[^a-z0-9]+` run with a single `-`. -/
def squeeze : List Char → List Char
  | [] => []
  | c :: cs =>
    let rest := squeeze cs
    if c = '-' ∧ rest.head? = some '-' then rest else c :: rest

/-- The hyphen test used by the stripping stages of line 72. -/
def isHyphen (c : Char) : Bool := c = '-'

/-- Drop trailing hyphens (the `-+$` branch of the second `sed` on
line 72). -/
def dropTrailing (l : List Char) : List Char :=
  ((l.reverse).dropWhile isHyphen).reverse

/-- `sed -E 's/^-+|-+$//g'`: strip leading and trailing hyphen runs. -/
def stripHyphens (l : List Char) : List Char :=
  dropTrailing (l.dropWhile isHyphen)

/-- The slug pipeline of line 72 on character lists. -/
def slugChars (l : List Char) : List Char :=
  stripHyphens (squeeze ((l.map lowerChar).map hyphenate))

/-- `APP_SLUG` (line 72): lowercase the basename, replace each maximal
run of characters outside `[a-z0-9]` by one hyphen, strip leading and
trailing hyphens. -/
def APP_SLUG (basename : String) : String := String.mk (slugChars basename.data)

/-- Lowercase ASCII letter test, the class `[a-z]` of the `sed` on
line 76. -/
def isLowerAlpha (c : Char) : Bool := 97 ≤ c.toNat && c.toNat ≤ 122

/-- ASCII uppercasing of one character (`\U` in the `sed` replacement on
line 76). -/
def upChar (c : Char) : Char :=
  if isLowerAlpha c then Char.ofNat (c.toNat - 32) else c

/-- Scanning part of `sed -E 's/(^|-)([a-z])/\U\2/g'` away from the
start of the line: a hyphen directly followed by a lowercase letter is
replaced by the uppercased letter alone (the replacement `\U\2` does not
re-emit the captured separator), everything else is copied. -/
def sedCapGo : List Char → List Char
  | [] => []
  | [c] => [c]
  | a :: b :: rest =>
    if a = '-' ∧ isLowerAlpha b then upChar b :: sedCapGo rest
    else a :: sedCapGo (b :: rest)

/-- `sed -E 's/(^|-)([a-z])/\U\2/g'` (line 76): additionally the `^`
branch may fire on a lowercase first character. -/
def sedCap : List Char → List Char
  | [] => []
  | c :: rest => if isLowerAlpha c then upChar c :: sedCapGo rest else sedCapGo (c :: rest)

/-- `tr '-' ' '` (line 76). -/
def trHyphenSpace (l : List Char) : List Char :=
  l.map (fun c => if c = '-' then ' ' else c)

/-- `APP_NAME` (line 76): the display name the script derives from the
slug. -/
def APP_NAME (slug : String) : String := String.mk (trHyphenSpace (sedCap slug.data))

/-- `basename` on character lists: strip trailing slashes, then keep the
part after the last slash; an all-slash path gives `/`. -/
def basenameChars (l : List Char) : List Char :=
  let r := ((l.reverse).dropWhile (fun c => c = '/')).reverse
  if r = [] then (if l = [] then [] else ['/'])
  else ((r.reverse).takeWhile (fun c => c ≠ '/')).reverse

/-- `BASENAME=$(basename "$TARGET_DIR")` (line 69). -/
def basename (s : String) : String := String.mk (basenameChars s.data)

/-- Literal global substring replacement, the effect of
`sed "s#pat#rep#g"` on one line; scanning resumes after each inserted
replacement, as `sed` does.  The fuel argument is the length of the
remaining input, which one replacement step always decreases. -/
def replaceAllFuel (pat rep : List Char) : Nat → List Char → List Char
  | _, [] => []
  | 0, l => l
  | fuel + 1, c :: cs =>
    if pat ≠ [] ∧ pat.isPrefixOf (c :: cs) then
      rep ++ replaceAllFuel pat rep fuel ((c :: cs).drop pat.length)
    else
      c :: replaceAllFuel pat rep fuel cs

/-- Replace every occurrence of `pat` in `s` by `rep`. -/
def replaceAll (s pat rep : String) : String :=
  String.mk (replaceAllFuel pat.data rep.data s.data.length s.data)

/-- `PLACEHOLDER_SLUG_APP_JSON` (line 88). -/
def PLACEHOLDER_SLUG_APP_JSON : String := "lenmie-expo-template"

/-- `PLACEHOLDER_BUNDLE_ID_PREFIX` (line 89). -/
def PLACEHOLDER_BUNDLE_ID_PREFIX : String := "com.javiso."

/-- `TARGET_FILES` (lines 92-95). -/
def TARGET_FILES : List String := ["app.json", "package.json"]

/-- The substitutions the rewrite loop applies to one file's content
(lines 107 and 111-113): first the generic slug substitution, then, for
`app.json` only, the bundle-identifier substitution layered on the
already-substituted content. -/
def rewriteFile (slug name content : String) : String :=
  let c1 := replaceAll content PLACEHOLDER_SLUG_APP_JSON slug
  if name = "app.json" then
    replaceAll c1 (PLACEHOLDER_BUNDLE_ID_PREFIX ++ PLACEHOLDER_SLUG_APP_JSON)
      (PLACEHOLDER_BUNDLE_ID_PREFIX ++ slug)
  else c1

/-- The destination directory's files, as an association list from file
name to content.  `lookupFile` is the `[ -f "$FILE_PATH" ]` test plus
the read of the file. -/
def lookupFile : List (String × String) → String → Option String
  | [], _ => none
  | p :: ps, name => if p.1 = name then some p.2 else lookupFile ps name

/-- In-place rewrite of one named file (the effect of `sed -i` on the
destination tree). -/
def setFile : List (String × String) → String → String → List (String × String)
  | [], _, _ => []
  | p :: ps, name, c => (if p.1 = name then (p.1, c) else p) :: setFile ps name c

/-- One iteration of the rewrite loop (lines 101-121) on the state
(destination files, emitted warnings).  A missing target file yields a
skip warning (line 119).  A failed `sed` leaves the file unchanged; the
failure warning of line 116 fires only for `app.json`, because for
`package.json` the `$?` tested on line 115 is the exit status of the
`if [ "$file_name" == "app.json" ]` conditional, which is zero. -/
def processFile (slug : String) (sedOk : Bool)
    (st : List (String × String) × List String) (name : String) :
    List (String × String) × List String :=
  match lookupFile st.1 name with
  | some content =>
    if sedOk then (setFile st.1 name (rewriteFile slug name content), st.2)
    else
      (st.1,
       st.2 ++ (if name = "app.json" then ["Warning: Failed to process file app.json."] else []))
  | none =>
    (st.1, st.2 ++ ["Warning: Expected file " ++ name ++ " not found in target directory. Skipping."])

/-- The whole rewrite loop (lines 101-121) over `TARGET_FILES`. -/
def rewriteLoop (slug : String) (sedOk : Bool) (fs : List (String × String)) :
    List (String × String) × List String :=
  TARGET_FILES.foldl (processFile slug sedOk) (fs, [])

/-- The environment a run of the script observes: command-line
arguments, pre-existing state of the destination, the operator's answer
to the overwrite prompt, and the success of the external commands
`mkdir`, `rsync` and `sed`.  `copiedFiles` is the destination content
after a successful `rsync`; `partialFiles` is whatever the destination
holds after a failed `rsync`. -/
structure Env where
  args : List String
  destExists : Bool
  reply : String
  mkdirOk : Bool
  rsyncOk : Bool
  initialFiles : List (String × String)
  copiedFiles : List (String × String)
  partialFiles : List (String × String)
  sedOk : Bool

/-- Observable outcome of a run: the process exit code, the destination
files at exit, whether the copy step ran to completion, the warnings
printed by the rewrite loop, and whether the final success banner of
line 126 was printed. -/
structure Result where
  exitCode : Nat
  files : List (String × String)
  copied : Bool
  warnings : List String
  successBanner : Bool

/-- `[[ $REPLY =~ ^[yY]$ ]]` (line 30): the answer is affirmative
exactly when it is the single character `y` or `Y`. -/
def replyAffirmative (r : String) : Bool := r == "y" || r == "Y"

/-- The script's control flow, line by line: argument-count check
(line 17), existing-directory confirmation (lines 26-33), `mkdir -p`
(line 35), `rsync` and its status check (lines 49-63), slug and name
derivation (lines 69-76), the rewrite loop (lines 101-121), and the
final report (lines 124-135).  The `$?` tested on line 125 is the exit
status of the `echo "---"` on line 124, which always succeeds, so once
the rewrite loop is reached the success branch is taken and the script
exits 0. -/
def runScript (env : Env) : Result :=
  if env.args.length ≠ 1 then
    ⟨1, env.initialFiles, false, [], false⟩
  else if env.destExists && !(replyAffirmative env.reply) then
    ⟨1, env.initialFiles, false, [], false⟩
  else if !env.destExists && !env.mkdirOk then
    ⟨1, env.initialFiles, false, [], false⟩
  else if !env.rsyncOk then
    ⟨1, env.partialFiles, false, [], false⟩
  else
    let slug := APP_SLUG (basename env.args.headI)
    let res := rewriteLoop slug env.sedOk env.copiedFiles
    ⟨0, res.1, true, res.2, true⟩

/-- Content of the template `app.json` fields named by the spec: the
slug placeholder and the documented bundle-identifier placeholder
`com.javiso.lenmieexpotemplate` (note: no hyphens, as in the script's
own comment on line 87). -/
def appJsonTemplate : String :=
  "\"slug\": \"lenmie-expo-template\", \"bundleIdentifier\": \"com.javiso.lenmieexpotemplate\""

/-- What the rewrite actually produces from `appJsonTemplate` for
destination `taco-app`. -/
def appJsonActual : String :=
  "\"slug\": \"taco-app\", \"bundleIdentifier\": \"com.javiso.lenmieexpotemplate\""

/-- What the spec expects the rewrite to produce from
`appJsonTemplate` for destination `taco-app`. -/
def appJsonExpected : String :=
  "\"slug\": \"taco-app\", \"bundleIdentifier\": \"com.javiso.taco-app\""

/-- Content of the template `package.json` fields that carry the slug
placeholder. -/
def packageJsonTemplate : String :=
  "\"name\": \"lenmie-expo-template\", \"version\": \"1.0.0\""

/-- A run in which every `sed` invocation fails: both target files are
present after the copy, destination `taco-app`, fresh directory. -/
def envSedFail : Env :=
  ⟨["taco-app"], false, "", true, true, [],
   [("app.json", appJsonTemplate), ("package.json", packageJsonTemplate)], [], false⟩

/-- A run in which `rsync` fails, leaving a partially copied tree. -/
def envCopyFail : Env :=
  ⟨["taco-app"], false, "", true, false, [],
   [("app.json", appJsonTemplate)], [("app.json", appJsonTemplate)], true⟩

/-- A run against a pre-existing destination in which the operator
answers `n` at the confirmation prompt. -/
def envDeclined : Env :=
  ⟨["taco-app"], true, "n", true, true, [("app.json", appJsonTemplate)], [], [], true⟩

/-- A run in which `package.json` is absent from the destination after
the copy, while `app.json` is present. -/
def envNoPackage : Env :=
  ⟨["taco-app"], false, "", true, true, [], [("app.json", appJsonTemplate)], [], true⟩

/-- No two consecutive characters of the list are both hyphens. -/
abbrev NoRun (l : List Char) : Prop :=
  l.Chain' (fun a b => ¬(a = '-' ∧ b = '-'))


/-- After dropping leading hyphens, the head is not a hyphen. -/
theorem head?_dropWhile_isHyphen (l : List Char) :
    (l.dropWhile isHyphen).head? ≠ some '-' := by
  induction l with
  | nil => simp
  | cons c cs ih =>
    rw [List.dropWhile_cons]
    by_cases h : c = '-'
    · simpa [isHyphen, h] using ih
    · simp [isHyphen, h]

/-- `dropWhile` removes an initial segment. -/
theorem exists_eq_append_dropWhile (p : Char → Bool) (l : List Char) :
    ∃ t, l = t ++ l.dropWhile p := by
  induction l with
  | nil => exact ⟨[], rfl⟩
  | cons c cs ih =>
    rw [List.dropWhile_cons]
    by_cases h : p c = true
    · rcases ih with ⟨t, ht⟩
      refine ⟨c :: t, ?_⟩
      rw [if_pos h, List.cons_append, ← ht]
    · exact ⟨[], by rw [if_neg h, List.nil_append]⟩

theorem mem_of_mem_dropWhile {p : Char → Bool} {c : Char} {l : List Char}
    (h : c ∈ l.dropWhile p) : c ∈ l :=
  (List.dropWhile_sublist ..).subset h

theorem mem_of_mem_dropTrailing {c : Char} {l : List Char}
    (h : c ∈ dropTrailing l) : c ∈ l := by
  unfold dropTrailing at h
  rw [List.mem_reverse] at h
  have h2 := mem_of_mem_dropWhile h
  rwa [List.mem_reverse] at h2

theorem mem_of_mem_stripHyphens {c : Char} {l : List Char}
    (h : c ∈ stripHyphens l) : c ∈ l :=
  mem_of_mem_dropWhile (mem_of_mem_dropTrailing h)

theorem mem_of_mem_squeeze {c : Char} : ∀ {l : List Char}, c ∈ squeeze l → c ∈ l := by
  intro l
  induction l with
  | nil => simp [squeeze]
  | cons d ds ih =>
    intro h
    simp only [squeeze] at h
    by_cases hc : d = '-' ∧ (squeeze ds).head? = some '-'
    · rw [if_pos hc] at h
      exact List.mem_cons_of_mem _ (ih h)
    · rw [if_neg hc] at h
      rcases List.mem_cons.mp h with h1 | h2
      · exact h1 ▸ List.mem_cons_self _ _
      · exact List.mem_cons_of_mem _ (ih h2)

/-- Every character produced by `hyphenate` is a slug character or a
hyphen. -/
theorem mem_map_hyphenate {c : Char} {l : List Char} (h : c ∈ l.map hyphenate) :
    isSlugChar c = true ∨ c = '-' := by
  rcases List.mem_map.mp h with ⟨d, _, rfl⟩
  unfold hyphenate
  by_cases hd : isSlugChar d = true
  · rw [if_pos hd]; exact Or.inl hd
  · rw [if_neg hd]; exact Or.inr rfl

/-- Every character of the slug pipeline's output is a slug character
or a hyphen. -/
theorem slugChars_mem {c : Char} {l : List Char} (h : c ∈ slugChars l) :
    isSlugChar c = true ∨ c = '-' :=
  mem_map_hyphenate (mem_of_mem_squeeze (mem_of_mem_stripHyphens h))

/-- A nonempty prefix-respecting head lemma for `dropTrailing`. -/
theorem head?_dropTrailing {l : List Char} {c : Char}
    (h : (dropTrailing l).head? = some c) : l.head? = some c := by
  rcases exists_eq_append_dropWhile isHyphen l.reverse with ⟨t, ht⟩
  have hl : l = dropTrailing l ++ t.reverse := by
    unfold dropTrailing
    conv_lhs => rw [← l.reverse_reverse, ht]
    rw [List.reverse_append]
  cases hdt : dropTrailing l with
  | nil => rw [hdt] at h; simp at h
  | cons d ds =>
    rw [hdt] at h hl
    simp only [List.head?_cons, Option.some.injEq] at h
    rw [hl, List.cons_append, List.head?_cons, h]

/-- The slug never starts with a hyphen. -/
theorem head?_stripHyphens (l : List Char) : (stripHyphens l).head? ≠ some '-' := by
  intro h
  exact head?_dropWhile_isHyphen l (head?_dropTrailing h)

/-- The slug never ends with a hyphen. -/
theorem getLast?_stripHyphens (l : List Char) :
    (stripHyphens l).getLast? ≠ some '-' := by
  unfold stripHyphens dropTrailing
  rw [List.getLast?_reverse]
  exact head?_dropWhile_isHyphen _

/-- `squeeze` leaves no two adjacent hyphens. -/
theorem noRun_squeeze (l : List Char) : NoRun (squeeze l) := by
  induction l with
  | nil => exact List.chain'_nil
  | cons c cs ih =>
    by_cases hc : c = '-' ∧ (squeeze cs).head? = some '-'
    · simp only [squeeze]
      rw [if_pos hc]
      exact ih
    · simp only [squeeze]
      rw [if_neg hc]
      refine List.chain'_cons'.mpr ⟨?_, ih⟩
      intro y hy hcy
      rw [Option.mem_def] at hy
      exact hc ⟨hcy.1, by rw [hy, hcy.2]⟩

theorem noRun_dropWhile {l : List Char} (h : NoRun l) :
    NoRun (l.dropWhile isHyphen) := by
  induction l with
  | nil => exact h
  | cons c cs ih =>
    rw [List.dropWhile_cons]
    by_cases hc : isHyphen c = true
    · rw [if_pos hc]
      exact ih h.tail
    · rw [if_neg hc]
      exact h

theorem noRun_reverse {l : List Char} (h : NoRun l) : NoRun l.reverse :=
  List.chain'_reverse.mpr (h.imp fun _ _ hab h2 => hab ⟨h2.2, h2.1⟩)

theorem noRun_dropTrailing {l : List Char} (h : NoRun l) : NoRun (dropTrailing l) :=
  noRun_reverse (noRun_dropWhile (noRun_reverse h))

theorem noRun_stripHyphens {l : List Char} (h : NoRun l) : NoRun (stripHyphens l) :=
  noRun_dropTrailing (noRun_dropWhile h)

/-- The slug pipeline's output has no run of hyphens. -/
theorem noRun_slugChars (l : List Char) : NoRun (slugChars l) :=
  noRun_stripHyphens (noRun_squeeze _)

theorem map_eq_self {f : Char → Char} {l : List Char} (h : ∀ c ∈ l, f c = c) :
    l.map f = l := by
  induction l with
  | nil => rfl
  | cons c cs ih =>
    rw [List.map_cons, h c (List.mem_cons_self c cs),
      ih fun d hd => h d (List.mem_cons_of_mem c hd)]

theorem lowerChar_eq_self {c : Char} (h : isSlugChar c = true ∨ c = '-') :
    lowerChar c = c := by
  rcases h with h | h
  · simp only [isSlugChar, Bool.or_eq_true, Bool.and_eq_true, decide_eq_true_eq] at h
    unfold lowerChar
    rw [if_neg (by omega)]
  · subst h; decide

theorem hyphenate_eq_self {c : Char} (h : isSlugChar c = true ∨ c = '-') :
    hyphenate c = c := by
  rcases h with h | h
  · unfold hyphenate; rw [if_pos h]
  · subst h; decide

theorem squeeze_eq_self {l : List Char} (h : NoRun l) : squeeze l = l := by
  induction l with
  | nil => rfl
  | cons c cs ih =>
    have hcs : squeeze cs = cs := ih h.tail
    have hneg : ¬(c = '-' ∧ cs.head? = some '-') := by
      intro hc
      have h1 := (List.chain'_cons'.mp h).1 '-' (by rw [Option.mem_def]; exact hc.2)
      exact h1 ⟨hc.1, rfl⟩
    simp only [squeeze]
    rw [hcs, if_neg hneg]

theorem dropWhile_isHyphen_eq_self {l : List Char} (h : l.head? ≠ some '-') :
    l.dropWhile isHyphen = l := by
  cases l with
  | nil => rfl
  | cons c cs =>
    have hc : ¬(isHyphen c = true) := by
      simp only [isHyphen, decide_eq_true_eq]
      intro hc
      exact h (by rw [hc, List.head?_cons])
    rw [List.dropWhile_cons, if_neg hc]

theorem dropTrailing_eq_self {l : List Char} (h : l.getLast? ≠ some '-') :
    dropTrailing l = l := by
  unfold dropTrailing
  rw [dropWhile_isHyphen_eq_self (by rwa [List.head?_reverse]), List.reverse_reverse]

theorem stripHyphens_eq_self {l : List Char} (h1 : l.head? ≠ some '-')
    (h2 : l.getLast? ≠ some '-') : stripHyphens l = l := by
  unfold stripHyphens
  rw [dropWhile_isHyphen_eq_self h1, dropTrailing_eq_self h2]

/-- A list already in slug shape passes through the slug pipeline
unchanged. -/
theorem slugChars_eq_self {l : List Char}
    (hmem : ∀ c ∈ l, isSlugChar c = true ∨ c = '-')
    (hrun : NoRun l) (h1 : l.head? ≠ some '-') (h2 : l.getLast? ≠ some '-') :
    slugChars l = l := by
  have e1 : l.map lowerChar = l :=
    map_eq_self (f := lowerChar) fun c hc => lowerChar_eq_self (hmem c hc)
  have e2 : l.map hyphenate = l :=
    map_eq_self (f := hyphenate) fun c hc => hyphenate_eq_self (hmem c hc)
  unfold slugChars
  rw [e1, e2, squeeze_eq_self hrun, stripHyphens_eq_self h1 h2]

theorem slugChars_head?_ne (l : List Char) : (slugChars l).head? ≠ some '-' :=
  head?_stripHyphens _

theorem slugChars_getLast?_ne (l : List Char) : (slugChars l).getLast? ≠ some '-' :=
  getLast?_stripHyphens _

/-- Rewriting a stored file changes the content seen by a later lookup
of the same name. -/
theorem lookupFile_setFile_self {fs : List (String × String)} {n c c' : String}
    (h : lookupFile fs n = some c) : lookupFile (setFile fs n c') n = some c' := by
  induction fs with
  | nil => exact absurd h (by simp [lookupFile])
  | cons p ps ih =>
    by_cases hp : p.1 = n
    · simp [setFile, lookupFile, hp]
    · simp only [lookupFile, if_neg hp] at h
      simp only [setFile, if_neg hp, lookupFile]
      exact ih h

/-- Rewriting a stored file leaves lookups of other names unchanged. -/
theorem lookupFile_setFile_ne {fs : List (String × String)} {n m c' : String}
    (h : m ≠ n) : lookupFile (setFile fs n c') m = lookupFile fs m := by
  induction fs with
  | nil => rfl
  | cons p ps ih =>
    by_cases hp : p.1 = n
    · have hm : ¬(p.1 = m) := fun hh => h (by rw [← hh, hp])
      simp only [setFile, if_pos hp, lookupFile]
      rw [if_neg (by simpa using hm), if_neg hm]
      exact ih
    · simp only [setFile, if_neg hp, lookupFile]
      by_cases hq : p.1 = m
      · rw [if_pos hq, if_pos hq]
      · rw [if_neg hq, if_neg hq]
        exact ih

/-- A present target file is rewritten in place when `sed` succeeds. -/
theorem processFile_found_sedOk {slug name content : String}
    {fs : List (String × String)} {ws : List String}
    (h : lookupFile fs name = some content) :
    processFile slug true (fs, ws) name =
      (setFile fs name (rewriteFile slug name content), ws) := by
  unfold processFile
  rw [show lookupFile (fs, ws).1 name = some content from h]
  simp

/-- A missing target file only appends a skip warning. -/
theorem processFile_missing {slug : String} {sedOk : Bool}
    {fs : List (String × String)} {ws : List String} {name : String}
    (h : lookupFile fs name = none) :
    processFile slug sedOk (fs, ws) name =
      (fs, ws ++ ["Warning: Expected file " ++ name ++
        " not found in target directory. Skipping."]) := by
  unfold processFile
  rw [show lookupFile (fs, ws).1 name = none from h]

/-- The rewrite loop when `app.json` is present and `package.json` is
missing: `app.json` is rewritten, `package.json` yields exactly the
skip warning. -/
theorem rewriteLoop_missing_package (slug : String) (fs : List (String × String))
    (c : String)
    (h6 : lookupFile fs "package.json" = none)
    (h7 : lookupFile fs "app.json" = some c) :
    rewriteLoop slug true fs =
      (setFile fs "app.json" (rewriteFile slug "app.json" c),
       ["Warning: Expected file package.json not found in target directory. Skipping."]) := by
  have hpkg : lookupFile (setFile fs "app.json" (rewriteFile slug "app.json" c))
      "package.json" = none := by
    rw [lookupFile_setFile_ne (by decide)]
    exact h6
  unfold rewriteLoop TARGET_FILES
  rw [List.foldl_cons, List.foldl_cons, List.foldl_nil]
  rw [processFile_found_sedOk h7, processFile_missing hpkg]
  rw [List.nil_append,
    show ("Warning: Expected file " ++ "package.json" ++
        " not found in target directory. Skipping." : String) =
      "Warning: Expected file package.json not found in target directory. Skipping." from rfl]

/-- Claim C1: against a template whose `app.json` carries
`"slug": "lenmie-expo-template"` and
`"bundleIdentifier": "com.javiso.lenmieexpotemplate"`, destination
`taco-app`, the claim expects the result to carry `"slug": "taco-app"`
and `"bundleIdentifier": "com.javiso.taco-app"`.  The code falsifies
this: the generic substitution rewrites the slug field, but neither it
nor the bundle-identifier substitution (whose pattern
`com.javiso.lenmie-expo-template` keeps the hyphens) matches the
hyphen-free placeholder `com.javiso.lenmieexpotemplate`, so the bundle
identifier survives unchanged — contradicting the script's own comment
on line 87, which promises that `com.javiso.lenmieexpotemplate` is
replaced. -/
theorem bundle_identifier_not_rewritten :
    rewriteFile "taco-app" "app.json" appJsonTemplate = appJsonActual ∧
    appJsonActual ≠ appJsonExpected := by
  decide

/-- Claim C2, counterexample: a run in which every substitution command
fails (both target files present, so the placeholder content survives
and a failure warning is printed) still prints the success banner and
exits 0: the `$?` tested on line 125 belongs to the `echo` on line 124,
so the final branch does not reflect the rewrite loop's outcome. -/
theorem final_check_ignores_replacement_failure :
    (runScript envSedFail).exitCode = 0 ∧
    (runScript envSedFail).successBanner = true ∧
    (runScript envSedFail).warnings = ["Warning: Failed to process file app.json."] ∧
    (runScript envSedFail).files = envSedFail.copiedFiles := by
  decide

/-- Claim C2, amended: the exit code is 0 exactly when the argument
count is right, a pre-existing destination is confirmed, a missing
destination is created, and the copy succeeds; once the rewrite loop is
reached the success branch is always taken (the tested `$?` is the
status of the preceding `echo`), so substitution failures never make
the exit code non-zero, and the banner agrees with the exit code. -/
theorem exit_code_reflects_gate (env : Env) :
    ((runScript env).exitCode = 0 ↔
      (env.args.length = 1 ∧
       (env.destExists = true → replyAffirmative env.reply = true) ∧
       (env.destExists = false → env.mkdirOk = true) ∧
       env.rsyncOk = true)) ∧
    (runScript env).successBanner = ((runScript env).exitCode == 0) := by
  unfold runScript
  split_ifs with h1 h2 h3 h4 <;> simp_all

/-- Claim C3: for every destination basename `B`, the derived slug
contains only lowercase letters, digits and hyphens, and never begins
or ends with a hyphen. -/
theorem slug_wellformed (B : String) :
    (∀ c ∈ (APP_SLUG B).data, isSlugChar c = true ∨ c = '-') ∧
    (APP_SLUG B).data.head? ≠ some '-' ∧
    (APP_SLUG B).data.getLast? ≠ some '-' :=
  ⟨fun _ hc => slugChars_mem hc, slugChars_head?_ne _, slugChars_getLast?_ne _⟩

/-- Claim C4: slug derivation is idempotent — deriving the slug of a
slug returns it unchanged, so any basename already in slug form is
fixed by the derivation. -/
theorem slug_idempotent (B : String) : APP_SLUG (APP_SLUG B) = APP_SLUG B :=
  congrArg String.mk
    (slugChars_eq_self (fun _ hc => slugChars_mem hc) (noRun_slugChars _)
      (slugChars_head?_ne _) (slugChars_getLast?_ne _))

/-- Claim C5: for the slug `new-awesome-app` the claim expects display
name `New Awesome App` (segments joined with single spaces).  The code
falsifies this: the `sed` replacement `\U\2` on line 76 does not re-emit
the captured separator, so a hyphen directly followed by a lowercase
letter is deleted rather than turned into a space, and the script
derives `NewAwesomeApp` — contradicting the script's own example
comment on line 75. -/
theorem display_name_merges_lowercase_segments :
    APP_NAME (APP_SLUG "new-awesome-app") = "NewAwesomeApp" ∧
    "NewAwesomeApp" ≠ "New Awesome App" := by
  decide

/-- Claim C6: on the documented examples the slugs and the silent empty
slug match the spec, but the display names do not: the code yields
`NewAwesomeApp` and `MyCoolApp` where the spec (and line 75 of the
script) document `New Awesome App` and `My Cool App`. -/
theorem documented_examples_evaluated :
    APP_SLUG (basename "../new-awesome-app") = "new-awesome-app" ∧
    APP_NAME (APP_SLUG (basename "../new-awesome-app")) = "NewAwesomeApp" ∧
    APP_SLUG (basename "My_Cool App!!") = "my-cool-app" ∧
    APP_NAME (APP_SLUG (basename "My_Cool App!!")) = "MyCoolApp" ∧
    APP_SLUG (basename "___") = "" ∧
    APP_NAME (APP_SLUG (basename "___")) = "" ∧
    "NewAwesomeApp" ≠ "New Awesome App" ∧
    "MyCoolApp" ≠ "My Cool App" := by
  decide

/-- Claim C7: if the copy step fails, the run exits non-zero before any
placeholder rewriting: the destination is left exactly as the failed
copy left it, and no rewrite warning is ever emitted. -/
theorem copy_failure_aborts (env : Env)
    (h1 : env.args.length = 1)
    (h2 : env.destExists = true → replyAffirmative env.reply = true)
    (h3 : env.destExists = false → env.mkdirOk = true)
    (h4 : env.rsyncOk = false) :
    (runScript env).exitCode = 1 ∧ (runScript env).files = env.partialFiles ∧
    (runScript env).copied = false ∧ (runScript env).warnings = [] := by
  have hb2 : (env.destExists && !(replyAffirmative env.reply)) = false := by
    cases hde : env.destExists
    · simp
    · simp [h2 hde]
  have hb3 : (!env.destExists && !env.mkdirOk) = false := by
    cases hde : env.destExists
    · simp [h3 hde]
    · simp
  have hA : ¬(env.args.length ≠ 1) := by omega
  unfold runScript
  rw [if_neg hA, hb2, hb3, h4]
  simp

/-- Claim C7, witness: a concrete failed-copy run. -/
theorem copy_failure_aborts_witness :
    (runScript envCopyFail).exitCode = 1 ∧
    (runScript envCopyFail).files = envCopyFail.partialFiles ∧
    (runScript envCopyFail).copied = false ∧
    (runScript envCopyFail).warnings = [] :=
  copy_failure_aborts envCopyFail (by decide) (by decide) (by decide) (by decide)

/-- Claim C8: if the destination pre-exists and the operator's answer
is not `y` or `Y`, the run exits non-zero with no side effects: nothing
is copied, the destination keeps its initial files, and no rewrite
warnings are emitted. -/
theorem declined_confirmation_no_side_effects (env : Env)
    (h1 : env.args.length = 1)
    (h2 : env.destExists = true)
    (h3 : replyAffirmative env.reply = false) :
    (runScript env).exitCode = 1 ∧ (runScript env).files = env.initialFiles ∧
    (runScript env).copied = false ∧ (runScript env).warnings = [] := by
  have hA : ¬(env.args.length ≠ 1) := by omega
  unfold runScript
  rw [if_neg hA, h2, h3]
  simp

/-- Claim C8, witness: a concrete declined-confirmation run. -/
theorem declined_confirmation_no_side_effects_witness :
    (runScript envDeclined).exitCode = 1 ∧
    (runScript envDeclined).files = envDeclined.initialFiles ∧
    (runScript envDeclined).copied = false ∧
    (runScript envDeclined).warnings = [] :=
  declined_confirmation_no_side_effects envDeclined (by decide) (by decide) (by decide)

/-- Claim C9: if `package.json` is absent from the destination after the
copy, the rewrite loop emits a skip warning for it, still processes
`app.json`, and the run completes with exit code 0. -/
theorem missing_package_json_skipped (env : Env) (t c : String)
    (h1 : env.args = [t])
    (h2 : env.destExists = true → replyAffirmative env.reply = true)
    (h3 : env.destExists = false → env.mkdirOk = true)
    (h4 : env.rsyncOk = true)
    (h5 : env.sedOk = true)
    (h6 : lookupFile env.copiedFiles "package.json" = none)
    (h7 : lookupFile env.copiedFiles "app.json" = some c) :
    (runScript env).exitCode = 0 ∧
    (runScript env).warnings =
      ["Warning: Expected file package.json not found in target directory. Skipping."] ∧
    lookupFile (runScript env).files "app.json" =
      some (rewriteFile (APP_SLUG (basename t)) "app.json" c) := by
  have hb2 : (env.destExists && !(replyAffirmative env.reply)) = false := by
    cases hde : env.destExists
    · simp
    · simp [h2 hde]
  have hb3 : (!env.destExists && !env.mkdirOk) = false := by
    cases hde : env.destExists
    · simp [h3 hde]
    · simp
  have hA : ¬(env.args.length ≠ 1) := by simp [h1]
  unfold runScript
  rw [if_neg hA, hb2, hb3, h4, h5, h1]
  simp only [Bool.false_eq_true, if_false, Bool.not_true, List.headI]
  rw [rewriteLoop_missing_package (APP_SLUG (basename t)) env.copiedFiles c h6 h7]
  exact ⟨trivial, rfl, lookupFile_setFile_self h7⟩

/-- Claim C9, witness: a concrete run with `package.json` missing. -/
theorem missing_package_json_skipped_witness :
    (runScript envNoPackage).exitCode = 0 ∧
    (runScript envNoPackage).warnings =
      ["Warning: Expected file package.json not found in target directory. Skipping."] ∧
    lookupFile (runScript envNoPackage).files "app.json" =
      some (rewriteFile (APP_SLUG (basename "taco-app")) "app.json" appJsonTemplate) :=
  missing_package_json_skipped envNoPackage "taco-app" appJsonTemplate rfl
    (by decide) (by decide) rfl rfl (by decide) (by decide)

/-- Claim C10: for the well-formed slug `new-awesome-app` the claimed
round trip `slug (displayName s) = s` fails on the code: the display
name is `NewAwesomeApp` (the separator-dropping `sed` of line 76), whose
slug is `newawesomeapp`, not `new-awesome-app`. -/
theorem slug_display_round_trip_fails :
    APP_SLUG "new-awesome-app" = "new-awesome-app" ∧
    APP_SLUG (APP_NAME "new-awesome-app") = "newawesomeapp" ∧
    "newawesomeapp" ≠ "new-awesome-app" := by
  decide

end CopyTemplate
